import Mathlib

/-!
Verification development for the Tomorrow Planner bot (src/db.py, src/bot.py).

The SQLite store of db.py is embedded as a pure state type `DB`: each table is
a list of rows, and the `AUTOINCREMENT` primary keys are modelled by explicit
counters.  Timestamps (`datetime.utcnow()`) are passed in explicitly as a
`now : String` argument.  Python integers (Telegram user ids, event ids) are
modelled as `Int`; SQL text columns as `String`.
-/

namespace AurumEvent

/-- Python `str.lower()` on ASCII text, character by character (kernel-reducible,
unlike `String.toLower`). -/
def pyLower (s : String) : String :=
  ⟨s.data.map Char.toLower⟩

/-- Row of the `events` table of db.py, in column order
`(id, user_id, title, type, time, location, created_at)`. -/
structure EventRow where
  id : Int
  user_id : Int
  title : String
  type : String
  time : String
  location : String
  created_at : String
deriving Repr, DecidableEq

/-- Row of the `rsvp` table of db.py, in column order
`(id, event_id, user_id, status, updated_at)`. -/
structure RsvpRow where
  id : Int
  event_id : Int
  user_id : Int
  status : String
  updated_at : String
deriving Repr, DecidableEq

/-- The SQLite database state: both tables plus the next value of each
`AUTOINCREMENT` primary key (SQLite autoincrement ids start at 1). -/
structure DB where
  events : List EventRow
  rsvps : List RsvpRow
  nextEventId : Int
  nextRsvpId : Int
deriving Repr, DecidableEq

/-- The freshly created database: both tables empty, ids starting at 1
(`Database._ensure_tables`). -/
def DB.initial : DB := ⟨[], [], 1, 1⟩

/-- `Database.create_event` (db.py lines 55-73): INSERT a fully populated row
into `events` and return `cursor.lastrowid`. -/
def DB.create_event (db : DB) (user_id : Int)
    (title event_type time location now : String) : Int × DB :=
  (db.nextEventId,
   { db with
       events := db.events ++
         [⟨db.nextEventId, user_id, title, event_type, time, location, now⟩],
       nextEventId := db.nextEventId + 1 })

/-- `Database.get_event` (db.py lines 92-98): `SELECT * FROM events WHERE id = ?`,
returning the first (and, under the primary-key invariant, only) match. -/
def DB.get_event (db : DB) (event_id : Int) : Option EventRow :=
  db.events.find? (fun e => decide (e.id = event_id))

/-- `Database.delete_event` (db.py lines 75-82):
`DELETE FROM events WHERE id = ? AND user_id = ?`, reporting `rowcount > 0`.
Because the connection runs with `PRAGMA foreign_keys = ON` and the `rsvp`
table declares `FOREIGN KEY(event_id) REFERENCES events(id) ON DELETE CASCADE`,
every rsvp row whose `event_id` matches a deleted event row is removed too. -/
def DB.delete_event (db : DB) (event_id user_id : Int) : DB × Bool :=
  let deleted := db.events.filter
    (fun e => decide (e.id = event_id ∧ e.user_id = user_id))
  let remaining := db.events.filter
    (fun e => !decide (e.id = event_id ∧ e.user_id = user_id))
  let rsvps2 := db.rsvps.filter
    (fun r => !(deleted.any (fun e => decide (e.id = r.event_id))))
  ({ db with events := remaining, rsvps := rsvps2 }, !deleted.isEmpty)

/-- `Database.upsert_rsvp` (db.py lines 100-112): INSERT with
`ON CONFLICT(event_id, user_id) DO UPDATE SET status, updated_at`.  When the
unique key conflicts, the existing row is updated in place (its `event_id` is
untouched, so no foreign-key check fires).  A fresh insert is subject to the
schema's `FOREIGN KEY(event_id) REFERENCES events(id)` under
`PRAGMA foreign_keys = ON` (db.py lines 22 and 50): with no event row of that
id, SQLite raises `sqlite3.IntegrityError` and writes nothing, modelled as
`none`. -/
def DB.upsert_rsvp (db : DB) (event_id user_id : Int) (status now : String) :
    Option DB :=
  if db.rsvps.any (fun r => decide (r.event_id = event_id ∧ r.user_id = user_id)) then
    some { db with
        rsvps := db.rsvps.map (fun r =>
          if r.event_id = event_id ∧ r.user_id = user_id then
            { r with status := status, updated_at := now }
          else r) }
  else if db.events.any (fun e => e.id == event_id) then
    some { db with
        rsvps := db.rsvps ++ [⟨db.nextRsvpId, event_id, user_id, status, now⟩],
        nextRsvpId := db.nextRsvpId + 1 }
  else
    none

/-- `Database.get_rsvp` (db.py lines 114-120):
`SELECT * FROM rsvp WHERE event_id = ? AND user_id = ?`. -/
def DB.get_rsvp (db : DB) (event_id user_id : Int) : Option RsvpRow :=
  db.rsvps.find? (fun r => decide (r.event_id = event_id ∧ r.user_id = user_id))

/-- The dictionary returned by `Database.get_rsvp_counts`: it is initialised
with the keys yes, no, maybe all at 0, so all three are always present. -/
structure Counts where
  yes : Nat
  no : Nat
  maybe : Nat
deriving Repr, DecidableEq

/-- `Database.get_rsvp_counts` (db.py lines 122-136): a `GROUP BY status` count
over the rsvp rows of one event, folded into a dict preset with
`yes = no = maybe = 0` under the key `row.status.lower()`.  Provided no two
distinct stored status strings share a lowercasing (the application only ever
stores the lowercase literals yes/no/maybe), the dict entry for each key equals
the number of the event's rows whose lowercased status is that key, which is
how it is rendered here. -/
def DB.get_rsvp_counts (db : DB) (event_id : Int) : Counts :=
  { yes := db.rsvps.countP
      (fun r => decide (r.event_id = event_id ∧ pyLower r.status = "yes")),
    no := db.rsvps.countP
      (fun r => decide (r.event_id = event_id ∧ pyLower r.status = "no")),
    maybe := db.rsvps.countP
      (fun r => decide (r.event_id = event_id ∧ pyLower r.status = "maybe")) }

/-! Well-formedness of a database state, as enforced by the SQLite schema
(db.py lines 25-53): `events.id` is a primary key, and `rsvp` carries
`UNIQUE(event_id, user_id)` plus the foreign key into `events`.  These are
stated as executable Bool predicates. -/

/-- No two event rows share an id (`id INTEGER PRIMARY KEY`). -/
def eventIdsUniqueB : List EventRow → Bool
  | [] => true
  | e :: t => t.all (fun f => !(f.id == e.id)) && eventIdsUniqueB t

/-- No two rsvp rows share the natural key (`UNIQUE(event_id, user_id)`). -/
def rsvpKeysUniqueB : List RsvpRow → Bool
  | [] => true
  | r :: t =>
      t.all (fun s => !(s.event_id == r.event_id && s.user_id == r.user_id)) &&
      rsvpKeysUniqueB t

/-- Referential integrity: every rsvp row points at an existing event row
(`FOREIGN KEY(event_id) REFERENCES events(id)` with `PRAGMA foreign_keys = ON`). -/
def DB.fkOkB (db : DB) : Bool :=
  db.rsvps.all (fun r => db.events.any (fun e => e.id == r.event_id))

/-! Embeddings of the Python string primitives bot.py relies on.  They operate
on `List Char`, the character content of a string; the model covers printable
ASCII text (CPython additionally accepts non-ASCII digit and whitespace
code points in `int()` and `str.isdigit()`, which no part of this bot emits). -/

/-- The digit characters of the decimal rendering of a natural number,
most significant first — Python `str` applied to a non-negative int. -/
def natDecimalChars (n : Nat) : List Char :=
  if n = 0 then ['0'] else ((Nat.digits 10 n).map Nat.digitChar).reverse

/-- Python `str` on an int: an optional minus sign followed by the decimal
digits of the absolute value. -/
def intToStr (i : Int) : String :=
  if i < 0 then ⟨'-' :: natDecimalChars i.natAbs⟩ else ⟨natDecimalChars i.natAbs⟩

/-- Strip leading and trailing whitespace, Python `str.strip()`. -/
def trimWsChars (l : List Char) : List Char :=
  ((l.dropWhile Char.isWhitespace).reverse.dropWhile Char.isWhitespace).reverse

/-- Python `str.strip()` on a `String` (kernel-reducible, unlike `String.trim`). -/
def pyStrip (s : String) : String :=
  ⟨trimWsChars s.data⟩

/-- Continuation of the digit-group acceptor of CPython `int()`: having read at
least one digit, the remainder must be digits, with single underscores allowed
only between digits. -/
def pyDigitRun : List Char → Bool
  | [] => true
  | c :: r =>
    if c = '_' then
      match r with
      | [] => false
      | c2 :: r2 => c2.isDigit && pyDigitRun r2
    else c.isDigit && pyDigitRun r

/-- The digit-group acceptor of CPython `int()`: nonempty, starts with a digit,
single underscores only between digits. -/
def pyDigitGroup : List Char → Bool
  | [] => false
  | c :: r => c.isDigit && pyDigitRun r

/-- Numeric value of a list of decimal digit characters, most significant first. -/
def digitsVal (l : List Char) : Nat :=
  l.foldl (fun a c => 10 * a + (c.toNat - 48)) 0

/-- Value of an accepted digit group: underscores are discarded. -/
def digitGroupVal (l : List Char) : Int :=
  (digitsVal (l.filter (fun c => !(c == '_'))) : Int)

/-- Sign-and-digit-group stage of CPython `int(s)`, applied to the
whitespace-stripped text. -/
def pyIntCore : List Char → Option Int
  | [] => none
  | c :: r =>
    if c = '-' then
      if pyDigitGroup r then some (-(digitGroupVal r)) else none
    else if c = '+' then
      if pyDigitGroup r then some (digitGroupVal r) else none
    else if pyDigitGroup (c :: r) then some (digitGroupVal (c :: r)) else none

/-- CPython `int(s)` on a printable-ASCII string: surrounding whitespace is
stripped, then an optional single sign precedes a digit group; `none` models
the `ValueError` raised on any other input. -/
def pyInt (s : List Char) : Option Int :=
  pyIntCore (trimWsChars s)

/-- Everything after the first occurrence of `sep`; `none` when `sep` does not
occur.  `some` is Python `s.split(sep, maxsplit=1)[1]`, and `none` is the
`IndexError` that indexing `[1]` would raise. -/
def afterFirst (sep : Char) : List Char → Option (List Char)
  | [] => none
  | c :: r => if c = sep then some r else afterFirst sep r

/-- Prepend a character to the first chunk of a split result. -/
def consHead (c : Char) : List (List Char) → List (List Char)
  | [] => [[c]]
  | h :: t => (c :: h) :: t

/-- Python `s.split(sep)` for a single-character separator: the (always
nonempty) list of chunks between occurrences of `sep`. -/
def splitOnChar (sep : Char) : List Char → List (List Char)
  | [] => [[]]
  | c :: r =>
    if c = sep then [] :: splitOnChar sep r
    else consHead c (splitOnChar sep r)

/-- Python `s.startswith(pre)`. -/
def pyStartsWith (s pre : String) : Bool :=
  pre.data.isPrefixOf s.data

/-- Python `s.isdigit()` on printable-ASCII text: nonempty and all decimal
digits. -/
def pyIsDigitStr (l : List Char) : Bool :=
  !l.isEmpty && l.all Char.isDigit

/-! The conversation layer of bot.py. -/

/-- `DEFAULT_TIME_TEXT` (bot.py line 29). -/
def DEFAULT_TIME_TEXT : String := "Tomorrow 19:00"

/-- `EventCreationState` (bot.py lines 32-49): the per-user /new dialogue
state.  The Python `data` dict accumulates at most the four step keys, modelled
as four optional fields. -/
structure EventCreationState where
  step_index : Nat := 0
  title : Option String := none
  location : Option String := none
  type : Option String := none
  time : Option String := none
deriving Repr, DecidableEq

/-- `EventCreationState.steps` (bot.py line 39). -/
def steps : List String := ["title", "location", "type", "time"]

/-- `EventCreationState.current_step` (bot.py lines 41-43): `steps[step_index]`;
`none` models the `IndexError` of an out-of-range index. -/
def EventCreationState.current_step (s : EventCreationState) : Option String :=
  steps.get? s.step_index

/-- An inbound Telegram message as the creation handler sees it
(`content_types=["text", "location"]`): either its text, or a location pin.
A pin carries the fixed-precision renderings of its latitude and longitude
(the `f"{lat:.6f}"` formatting itself is floating point and stays outside the
model). -/
inductive MsgContent where
  | text (s : String)
  | location (latLabel lonLabel : String)
deriving Repr, DecidableEq

/-- `message.text`: present on a text message, `None` on a location message. -/
def MsgContent.textOf : MsgContent → Option String
  | .text s => some s
  | .location _ _ => none

/-- The time-step computation of `handle_event_creation` (bot.py lines
314-320): strip the text; empty selects `DEFAULT_TIME_TEXT`; a 5-character
input whose third character is a colon and whose colon-free residue is a
nonempty digit string gets a `"Tomorrow "` prefix; anything else is stored
trimmed, verbatim. -/
def timeValueOfInput (t : String) : String :=
  let user_text := pyStrip t
  if user_text = "" then DEFAULT_TIME_TEXT
  else if user_text.length == 5 &&
          user_text.data.getD 2 ' ' == ':' &&
          pyIsDigitStr (user_text.data.filter (fun c => !(c == ':'))) then
    "Tomorrow " ++ user_text
  else user_text

/-- `get_invite_link` (bot.py lines 73-75), with the cached bot username passed
in explicitly. -/
def get_invite_link (username : String) (event_id : Int) : String :=
  "https://t.me/" ++ username ++ "?start=join_" ++ intToStr event_id

/-- The deep-link parsing of `handle_start` (bot.py lines 208-211): an argument
starting with `"join_"` has the text after its first underscore parsed with
`int(...)`; `none` covers the caught `IndexError`/`ValueError`.  Since the
first underscore of such an argument is the one ending `"join_"`, the match
below consumes that prefix directly. -/
def parseJoinArgChars : List Char → Option Int
  | 'j' :: 'o' :: 'i' :: 'n' :: '_' :: rest => pyInt rest
  | _ => none

/-- String-level wrapper of `parseJoinArgChars`. -/
def parseJoinArg (arg : String) : Option Int :=
  parseJoinArgChars arg.data

/-- In-process bot state: the database plus the `user_states` dict
(bot.py line 52), keyed by Telegram user id. -/
structure BotState where
  db : DB
  user_states : Int → Option EventCreationState

/-- Write one entry of `user_states`. -/
def BotState.setState (bs : BotState) (uid : Int) (st : EventCreationState) : BotState :=
  { bs with user_states := fun k => if k = uid then some st else bs.user_states k }

/-- `reset_state` (bot.py lines 146-147): `user_states.pop(user_id, None)`. -/
def BotState.clearState (bs : BotState) (uid : Int) : BotState :=
  { bs with user_states := fun k => if k = uid then none else bs.user_states k }

/-- Outbound effects of one handler invocation, as structured data: the
arguments the handler passes to the renderer and the transport, rather than
the final HTML text. -/
inductive Out where
  | plain
  | replyError (msg : String)
  | promptStep (step : String)
  | eventSaved (event : Option EventRow) (counts : Counts) (invite : String)
  | alert (msg : String)
  | ok (msg : String)
  | eventView (event : EventRow) (userStatus : Option String) (counts : Counts)
      (includeInvite : Bool)
  | joinView (event : EventRow) (userStatus : String) (counts : Counts)
  | deleted
deriving Repr, DecidableEq

/-- `user_has_access` (bot.py lines 150-153). -/
def user_has_access (db : DB) (event_row : EventRow) (user_id : Int) : Bool :=
  event_row.user_id == user_id || (db.get_rsvp event_row.id user_id).isSome

/-- `handle_join_event` (bot.py lines 156-182): in a private chat, for an
existing event, a first-time visitor gets an RSVP defaulting to maybe; a
returning visitor keeps the stored row; the event is then rendered with the
shown status and fresh counts.  `none` models an exception escaping the
handler (the upsert's `IntegrityError`, unreachable here because the insert
only runs after `get_event` found the event). -/
def handle_join_event (chatType : String) (uid : Int) (now : String)
    (db : DB) (event_id : Int) : Option (DB × Out) :=
  if chatType ≠ "private" then
    some (db, Out.replyError ("Please message me privately to join this event."))
  else
    match db.get_event event_id with
    | none => some (db, Out.replyError ("Event not found or already deleted."))
    | some event =>
      let rsvp_row := db.get_rsvp event_id uid
      let status := match rsvp_row with
        | some r => r.status
        | none => "maybe"
      let db2opt := match rsvp_row with
        | some _ => some db
        | none => db.upsert_rsvp event_id uid status now
      match db2opt with
      | none => none
      | some db2 => some (db2, Out.joinView event status (db2.get_rsvp_counts event_id))

/-- `finish_event_creation` (bot.py lines 185-202): persist the collected
fields, clear the conversation state, re-read the event and render it with an
invite link.  `none` models the `KeyError` a missing dict key would raise
(unreachable when the steps ran in order). -/
def finish_event_creation (uid : Int) (now username : String) (bs : BotState)
    (st : EventCreationState) : Option (BotState × Out) :=
  match st.title, st.location, st.type, st.time with
  | some title, some location, some etype, some time =>
    let res := bs.db.create_event uid title etype time location now
    let db2 := res.2
    let bs2 := BotState.clearState { bs with db := db2 } uid
    some (bs2, Out.eventSaved (db2.get_event res.1) (db2.get_rsvp_counts res.1)
      (get_invite_link username res.1))
  | _, _, _, _ => none

/-- `handle_event_creation` (bot.py lines 273-322): one inbound message of the
/new dialogue.  The surrounding dispatch predicate
(`msg.from_user.id in user_states`) is the first match; `Out.plain` marks a
message this handler does not act on. -/
def handle_event_creation (uid : Int) (now username : String) (bs : BotState)
    (m : MsgContent) : Option (BotState × Out) :=
  match bs.user_states uid with
  | none => some (bs, Out.plain)
  | some st =>
    match st.current_step with
    | none => none
    | some step =>
      if step = "title" then
        match m with
        | .location _ _ =>
          some (bs, Out.replyError ("Please send a short title or description for the event."))
        | .text s =>
          if s == "" || pyStrip s == "" then
            some (bs, Out.replyError ("Please send a short title or description for the event."))
          else
            let st2 := { st with title := some (pyStrip s), step_index := st.step_index + 1 }
            some (bs.setState uid st2, Out.promptStep (st2.current_step.getD ("")))
      else if step = "location" then
        match m with
        | .location la lo =>
          let st2 := { st with location := some ("Pin: " ++ la ++ ", " ++ lo),
                               step_index := st.step_index + 1 }
          some (bs.setState uid st2, Out.promptStep (st2.current_step.getD ("")))
        | .text s =>
          if !(s == "") && !(pyStrip s == "") then
            let st2 := { st with location := some (pyStrip s), step_index := st.step_index + 1 }
            some (bs.setState uid st2, Out.promptStep (st2.current_step.getD ("")))
          else
            some (bs, Out.replyError ("Send a location pin or type the location."))
      else if step = "type" then
        match m with
        | .location _ _ =>
          some (bs, Out.replyError ("Please tell me the event type (e.g., dinner, movie, walk)."))
        | .text s =>
          if s == "" || pyStrip s == "" then
            some (bs, Out.replyError ("Please tell me the event type (e.g., dinner, movie, walk)."))
          else
            let st2 := { st with type := some (pyStrip s), step_index := st.step_index + 1 }
            some (bs.setState uid st2, Out.promptStep (st2.current_step.getD ("")))
      else if step = "time" then
        match m with
        | .location _ _ =>
          some (bs, Out.replyError ("Please type the time, for example 19:30."))
        | .text s =>
          let st2 := { st with time := some (timeValueOfInput s) }
          finish_event_creation uid now username (bs.setState uid st2) st2
      else
        some (bs, Out.plain)

/-- `handle_view_callback` (bot.py lines 325-344). -/
def handle_view_callback (uid : Int) (db : DB) (event_id : Int) : DB × Out :=
  match db.get_event event_id with
  | none => (db, Out.alert ("Event not found."))
  | some event =>
    if !(user_has_access db event uid) then
      (db, Out.alert ("You do not have access to this event."))
    else
      (db, Out.eventView event ((db.get_rsvp event_id uid).map RsvpRow.status)
        (db.get_rsvp_counts event_id) (event.user_id == uid))

/-- `handle_delete_callback` (bot.py lines 347-361). -/
def handle_delete_callback (uid : Int) (db : DB) (event_id : Int) : DB × Out :=
  match db.get_event event_id with
  | none => (db, Out.alert ("You can only delete your own events."))
  | some event =>
    if event.user_id ≠ uid then
      (db, Out.alert ("You can only delete your own events."))
    else
      let res := db.delete_event event_id uid
      if res.2 then (res.1, Out.deleted)
      else (res.1, Out.alert ("Event not found."))

/-- `handle_rsvp_callback` (bot.py lines 364-395).  `none` models an exception
escaping the handler (the upsert's `IntegrityError`, unreachable here because
the upsert only runs after `get_event` found the event). -/
def handle_rsvp_callback (uid : Int) (now : String) (db : DB) (event_id : Int)
    (status : String) : Option (DB × Out) :=
  if !(status == "yes" || status == "no" || status == "maybe") then
    some (db, Out.alert ("Unknown option."))
  else
    match db.get_event event_id with
    | none => some (db, Out.alert ("Event not found."))
    | some event =>
      if !(user_has_access db event uid) then
        some (db, Out.alert ("Join via the invite link first."))
      else
        match db.upsert_rsvp event_id uid status now with
        | none => none
        | some db2 =>
          some (db2, Out.eventView event (some status) (db2.get_rsvp_counts event_id)
            (event.user_id == uid))

/-- `handle_callbacks` (bot.py lines 398-426): parse the colon-delimited
callback payload and dispatch.  `none` models an uncaught exception
(no branch of the source can raise one: each `int(...)` sits in a
`try ... except ValueError`). -/
def handle_callbacks (uid : Int) (now : String) (data : String) (db : DB) :
    Option (DB × Out) :=
  if pyStartsWith data ("view:") then
    match afterFirst ':' data.data with
    | none => none
    | some rest =>
      match pyInt rest with
      | none => some (db, Out.alert ("Invalid event id."))
      | some event_id => some (handle_view_callback uid db event_id)
  else if pyStartsWith data ("delete:") then
    match afterFirst ':' data.data with
    | none => none
    | some rest =>
      match pyInt rest with
      | none => some (db, Out.alert ("Invalid event id."))
      | some event_id => some (handle_delete_callback uid db event_id)
  else if pyStartsWith data ("rsvp:") then
    let parts := splitOnChar ':' data.data
    if parts.length ≠ 3 then some (db, Out.alert ("Invalid RSVP data."))
    else
      match parts with
      | [_, p1, p2] =>
        match pyInt p1 with
        | none => some (db, Out.alert ("Invalid RSVP data."))
        | some event_id => handle_rsvp_callback uid now db event_id ⟨p2⟩
      | _ => none
  else
    some (db, Out.plain)

/-! Helper lemmas. -/

/-- Under the unique-key invariant, at most one rsvp row matches a fixed
(event, responder) key. -/
theorem countP_key_le_one (e u : Int) :
    ∀ l : List RsvpRow, rsvpKeysUniqueB l = true →
      l.countP (fun r => decide (r.event_id = e ∧ r.user_id = u)) ≤ 1 := by
  intro l
  induction l with
  | nil => intro _; simp
  | cons r t ih =>
    intro h
    rw [rsvpKeysUniqueB, Bool.and_eq_true, List.all_eq_true] at h
    obtain ⟨hall, ht⟩ := h
    rw [List.countP_cons]
    by_cases hk : r.event_id = e ∧ r.user_id = u
    · have h0 : t.countP (fun r => decide (r.event_id = e ∧ r.user_id = u)) = 0 := by
        rw [List.countP_eq_zero]
        intro s hs hps
        have hns := hall s hs
        simp only [decide_eq_true_eq] at hps
        simp only [Bool.not_eq_eq_eq_not, Bool.not_true, Bool.and_eq_false_iff,
          beq_eq_false_iff_ne, ne_eq] at hns
        rcases hns with hns | hns
        · exact hns (hps.1.trans hk.1.symm)
        · exact hns (hps.2.trans hk.2.symm)
      have hd : decide (r.event_id = e ∧ r.user_id = u) = true := by simp [hk]
      rw [hd, h0]
      simp
    · have hd : decide (r.event_id = e ∧ r.user_id = u) = false := by simp [hk]
      have := ih ht
      rw [hd]
      simp only [Bool.false_eq_true, if_false]
      omega

/-- Claim C2: for an existing event, upserting an RSVP twice for the same
(event, responder) key succeeds both times (the foreign-key check passes) and
leaves exactly one row with that key, whose stored status is the second
(latest) write. -/
theorem upsert_twice_single_row (db : DB) (ev : EventRow) (e u : Int)
    (s1 t1 s2 t2 : String)
    (h : rsvpKeysUniqueB db.rsvps = true)
    (hev : ev ∈ db.events) (hid : ev.id = e) :
    ∃ db1 db2 : DB, db.upsert_rsvp e u s1 t1 = some db1 ∧
      db1.upsert_rsvp e u s2 t2 = some db2 ∧
      db2.rsvps.countP (fun r => decide (r.event_id = e ∧ r.user_id = u)) = 1 ∧
      (∀ r ∈ db2.rsvps, r.event_id = e → r.user_id = u → r.status = s2) := by
  have hupd : ∀ (s t : String) (x : RsvpRow),
      ((if x.event_id = e ∧ x.user_id = u then
          { x with status := s, updated_at := t } else x).event_id = x.event_id) ∧
      ((if x.event_id = e ∧ x.user_id = u then
          { x with status := s, updated_at := t } else x).user_id = x.user_id) := by
    intro s t x
    by_cases hk : x.event_id = e ∧ x.user_id = u <;> simp [hk]
  have hcong : ∀ (l : List RsvpRow) (s t : String),
      (l.map (fun x => if x.event_id = e ∧ x.user_id = u then
          { x with status := s, updated_at := t } else x)).countP
        (fun r => decide (r.event_id = e ∧ r.user_id = u)) =
      l.countP (fun r => decide (r.event_id = e ∧ r.user_id = u)) := by
    intro l s t
    rw [List.countP_map]
    apply List.countP_congr
    intro x _
    obtain ⟨he2, hu2⟩ := hupd s t x
    simp only [Function.comp_apply, decide_eq_true_eq]
    rw [he2, hu2]
  have hfkany : (db.events.any (fun e2 => e2.id == e)) = true :=
    List.any_eq_true.mpr ⟨ev, hev, by simp [hid]⟩
  by_cases hany :
      db.rsvps.any (fun r => decide (r.event_id = e ∧ r.user_id = u)) = true
  · -- a row with the key already exists: both upserts are in-place updates
    have h1 : db.upsert_rsvp e u s1 t1 =
        some { db with rsvps := db.rsvps.map (fun x =>
          if x.event_id = e ∧ x.user_id = u then
            { x with status := s1, updated_at := t1 } else x) } := by
      rw [DB.upsert_rsvp, if_pos hany]
    have hany2 : ((db.rsvps.map (fun x => if x.event_id = e ∧ x.user_id = u then
        { x with status := s1, updated_at := t1 } else x)).any
        (fun r => decide (r.event_id = e ∧ r.user_id = u))) = true := by
      rw [List.any_eq_true]
      obtain ⟨a, ha, hpa⟩ := List.any_eq_true.mp hany
      refine ⟨_, List.mem_map_of_mem _ ha, ?_⟩
      obtain ⟨he2, hu2⟩ := hupd s1 t1 a
      simp only [decide_eq_true_eq] at hpa ⊢
      rw [he2, hu2]; exact hpa
    have h2 : ({ db with rsvps := db.rsvps.map (fun x =>
          if x.event_id = e ∧ x.user_id = u then
            { x with status := s1, updated_at := t1 } else x) } : DB).upsert_rsvp
          e u s2 t2 =
        some { db with rsvps := (db.rsvps.map (fun x =>
          if x.event_id = e ∧ x.user_id = u then
            { x with status := s1, updated_at := t1 } else x)).map (fun x =>
          if x.event_id = e ∧ x.user_id = u then
            { x with status := s2, updated_at := t2 } else x) } := by
      rw [DB.upsert_rsvp, if_pos hany2]
    refine ⟨_, _, h1, h2, ?_, ?_⟩
    · show ((db.rsvps.map (fun x => if x.event_id = e ∧ x.user_id = u then
          { x with status := s1, updated_at := t1 } else x)).map
          (fun x => if x.event_id = e ∧ x.user_id = u then
            { x with status := s2, updated_at := t2 } else x)).countP
          (fun r => decide (r.event_id = e ∧ r.user_id = u)) = 1
      rw [hcong, hcong]
      have hle := countP_key_le_one e u db.rsvps h
      have hpos : 0 < db.rsvps.countP
          (fun r => decide (r.event_id = e ∧ r.user_id = u)) :=
        List.countP_pos_iff.mpr (List.any_eq_true.mp hany)
      omega
    · intro r hr he2 hu2
      have hr2 : r ∈ (db.rsvps.map (fun x => if x.event_id = e ∧ x.user_id = u then
          { x with status := s1, updated_at := t1 } else x)).map
          (fun x => if x.event_id = e ∧ x.user_id = u then
            { x with status := s2, updated_at := t2 } else x) := hr
      obtain ⟨a, _, rfl⟩ := List.mem_map.mp hr2
      by_cases hk : a.event_id = e ∧ a.user_id = u
      · simp [hk]
      · rw [if_neg hk] at he2 hu2
        exact absurd ⟨he2, hu2⟩ hk
  · -- no row with the key: the first upsert inserts (the event exists, so the
    -- foreign-key check passes), the second updates that row
    have h1 : db.upsert_rsvp e u s1 t1 =
        some { db with
          rsvps := db.rsvps ++ [⟨db.nextRsvpId, e, u, s1, t1⟩],
          nextRsvpId := db.nextRsvpId + 1 } := by
      rw [DB.upsert_rsvp, if_neg hany, if_pos hfkany]
    have hany2 : ((db.rsvps ++ ([⟨db.nextRsvpId, e, u, s1, t1⟩] : List RsvpRow)).any
        (fun r => decide (r.event_id = e ∧ r.user_id = u))) = true := by
      rw [List.any_eq_true]
      exact ⟨_, List.mem_append_right _ (List.mem_singleton_self _), by simp⟩
    have h2 : ({ db with
          rsvps := db.rsvps ++ [⟨db.nextRsvpId, e, u, s1, t1⟩],
          nextRsvpId := db.nextRsvpId + 1 } : DB).upsert_rsvp e u s2 t2 =
        some { db with
          rsvps := (db.rsvps ++ ([⟨db.nextRsvpId, e, u, s1, t1⟩] : List RsvpRow)).map (fun x =>
            if x.event_id = e ∧ x.user_id = u then
              { x with status := s2, updated_at := t2 } else x),
          nextRsvpId := db.nextRsvpId + 1 } := by
      rw [DB.upsert_rsvp, if_pos hany2]
    have h0 : db.rsvps.countP
        (fun r => decide (r.event_id = e ∧ r.user_id = u)) = 0 := by
      rw [List.countP_eq_zero]
      intro a ha hpa
      exact hany (List.any_eq_true.mpr ⟨a, ha, hpa⟩)
    refine ⟨_, _, h1, h2, ?_, ?_⟩
    · show ((db.rsvps ++ ([⟨db.nextRsvpId, e, u, s1, t1⟩] : List RsvpRow)).map
          (fun x => if x.event_id = e ∧ x.user_id = u then
            { x with status := s2, updated_at := t2 } else x)).countP
          (fun r => decide (r.event_id = e ∧ r.user_id = u)) = 1
      rw [List.map_append, List.countP_append, hcong, h0]
      simp
    · intro r hr he2 hu2
      have hr2 : r ∈ (db.rsvps ++ ([⟨db.nextRsvpId, e, u, s1, t1⟩] : List RsvpRow)).map
          (fun x => if x.event_id = e ∧ x.user_id = u then
            { x with status := s2, updated_at := t2 } else x) := hr
      obtain ⟨a, ha, rfl⟩ := List.mem_map.mp hr2
      by_cases hk : a.event_id = e ∧ a.user_id = u
      · simp [hk]
      · rw [if_neg hk] at he2 hu2
        exact absurd ⟨he2, hu2⟩ hk

/-- Concrete database for the C2 witness: one event, no RSVPs yet. -/
def dbC2 : DB := ⟨[⟨1, 7, "T", "Ty", "Ti", "L", "c"⟩], [], 2, 1⟩

/-- Witness for C2: two upserts against the existing event 1 leave one row
with the latest status. -/
theorem upsert_twice_single_row_witness :
    ∃ db1 db2 : DB, dbC2.upsert_rsvp 1 2 ("yes") ("t1") = some db1 ∧
      db1.upsert_rsvp 1 2 ("no") ("t2") = some db2 ∧
      db2.rsvps.countP (fun r => decide (r.event_id = 1 ∧ r.user_id = 2)) = 1 ∧
      (∀ r ∈ db2.rsvps, r.event_id = 1 → r.user_id = 2 → r.status = "no") :=
  upsert_twice_single_row dbC2 ⟨1, 7, "T", "Ty", "Ti", "L", "c"⟩ 1 2
    ("yes") ("t1") ("no") ("t2") (by decide) (by decide) (by decide)

/-- Under the unique-id invariant, two event rows with the same id are the
same row. -/
theorem eventIds_unique_eq :
    ∀ l : List EventRow, eventIdsUniqueB l = true →
      ∀ a ∈ l, ∀ b ∈ l, a.id = b.id → a = b := by
  intro l
  induction l with
  | nil => intro _ a ha; exact absurd ha (List.not_mem_nil a)
  | cons e t ih =>
    intro h a ha b hb hab
    rw [eventIdsUniqueB, Bool.and_eq_true, List.all_eq_true] at h
    obtain ⟨hall, ht⟩ := h
    rcases List.mem_cons.mp ha with rfl | hat
    · rcases List.mem_cons.mp hb with rfl | hbt
      · rfl
      · have := hall b hbt
        simp only [Bool.not_eq_eq_eq_not, Bool.not_true, beq_eq_false_iff_ne, ne_eq] at this
        exact absurd hab.symm this
    · rcases List.mem_cons.mp hb with rfl | hbt
      · have := hall a hat
        simp only [Bool.not_eq_eq_eq_not, Bool.not_true, beq_eq_false_iff_ne, ne_eq] at this
        exact absurd hab this
      · exact ih ht a hat b hbt hab

/-- Under the unique-id invariant, looking an event up by the id of a member
row returns that row. -/
theorem find_event_by_id :
    ∀ l : List EventRow, ∀ ev : EventRow, eventIdsUniqueB l = true → ev ∈ l →
      l.find? (fun e => decide (e.id = ev.id)) = some ev := by
  intro l
  induction l with
  | nil => intro ev _ hm; exact absurd hm (List.not_mem_nil ev)
  | cons e t ih =>
    intro ev h hm
    rw [eventIdsUniqueB, Bool.and_eq_true, List.all_eq_true] at h
    obtain ⟨hall, ht⟩ := h
    by_cases hc : e.id = ev.id
    · have hev : e = ev := by
        rcases List.mem_cons.mp hm with rfl | hmt
        · rfl
        · have := hall ev hmt
          simp only [Bool.not_eq_eq_eq_not, Bool.not_true, beq_eq_false_iff_ne, ne_eq] at this
          exact absurd hc.symm this
      rw [List.find?_cons_of_pos _ (by simp [hc]), hev]
    · rcases List.mem_cons.mp hm with rfl | hmt
      · exact absurd rfl hc
      · rw [List.find?_cons_of_neg _ (by simp [hc])]
        exact ih ev ht hmt

/-- Claim C3: deleting an event by its organizer removes every RSVP row of
that event, every subsequent RSVP lookup for that event misses, and
referential integrity is preserved. -/
theorem delete_event_cascades (db : DB) (ev : EventRow) (eid uid : Int)
    (hev : ev ∈ db.events) (hid : ev.id = eid) (huid : ev.user_id = uid)
    (hfk : db.fkOkB = true) :
    (∀ r ∈ (db.delete_event eid uid).1.rsvps, r.event_id ≠ eid) ∧
    (∀ u2 : Int, (db.delete_event eid uid).1.get_rsvp eid u2 = none) ∧
    (db.delete_event eid uid).1.fkOkB = true := by
  have hmemdel : ev ∈ db.events.filter
      (fun e => decide (e.id = eid ∧ e.user_id = uid)) :=
    List.mem_filter.mpr ⟨hev, by simp [hid, huid]⟩
  have hrs : (db.delete_event eid uid).1.rsvps =
      db.rsvps.filter (fun r =>
        !((db.events.filter (fun e => decide (e.id = eid ∧ e.user_id = uid))).any
          (fun e => decide (e.id = r.event_id)))) := by
    simp only [DB.delete_event]
  have hpart1 : ∀ r ∈ (db.delete_event eid uid).1.rsvps, r.event_id ≠ eid := by
    intro r hr hcon
    rw [hrs] at hr
    have h2 := (List.mem_filter.mp hr).2
    rw [Bool.not_eq_eq_eq_not, Bool.not_true, List.any_eq_false] at h2
    exact h2 ev hmemdel (by simp [hid, hcon])
  refine ⟨hpart1, ?_, ?_⟩
  · intro u2
    rw [DB.get_rsvp, List.find?_eq_none]
    intro x hx
    simp only [decide_eq_true_eq, not_and]
    intro hxe
    exact absurd hxe (hpart1 x hx)
  · have hevs : (db.delete_event eid uid).1.events =
        db.events.filter (fun e => !decide (e.id = eid ∧ e.user_id = uid)) := by
      simp only [DB.delete_event]
    rw [DB.fkOkB, List.all_eq_true]
    intro r hr
    have hrmem : r ∈ db.rsvps := by
      rw [hrs] at hr
      exact (List.mem_filter.mp hr).1
    have hrkeep := (List.mem_filter.mp (hrs ▸ hr)).2
    have := List.all_eq_true.mp (by rw [DB.fkOkB] at hfk; exact hfk) r hrmem
    obtain ⟨e0, he0, he0id⟩ := List.any_eq_true.mp this
    rw [beq_iff_eq] at he0id
    rw [hevs, List.any_eq_true]
    refine ⟨e0, List.mem_filter.mpr ⟨he0, ?_⟩, by simp [he0id]⟩
    simp only [Bool.not_eq_eq_eq_not, Bool.not_true, decide_eq_false_iff_not, not_and]
    intro hside huide
    rw [Bool.not_eq_eq_eq_not, Bool.not_true, List.any_eq_false] at hrkeep
    exact hrkeep e0 (List.mem_filter.mpr ⟨he0, by simp [hside, huide]⟩) (by simp [he0id])

/-- Concrete database for the C3 witness: one event with one RSVP. -/
def dbC3 : DB :=
  ⟨[⟨1, 7, "T", "Ty", "Ti", "L", "c"⟩], [⟨1, 1, 9, "yes", "u"⟩], 2, 2⟩

/-- Witness for C3: deleting the only event of `dbC3` by its organizer. -/
theorem delete_event_cascades_witness :
    (∀ r ∈ (dbC3.delete_event 1 7).1.rsvps, r.event_id ≠ 1) ∧
    (∀ u2 : Int, (dbC3.delete_event 1 7).1.get_rsvp 1 u2 = none) ∧
    (dbC3.delete_event 1 7).1.fkOkB = true :=
  delete_event_cascades dbC3 ⟨1, 7, "T", "Ty", "Ti", "L", "c"⟩ 1 7
    (by decide) (by decide) (by decide) (by decide)

/-- Claim C5: a delete requested by anyone other than the organizer returns
false, removes nothing, and leaves the event retrievable unchanged. -/
theorem delete_by_non_organizer (db : DB) (ev : EventRow) (eid req : Int)
    (hu : eventIdsUniqueB db.events = true) (hev : ev ∈ db.events)
    (hid : ev.id = eid) (horg : ev.user_id ≠ req) :
    db.delete_event eid req = (db, false) ∧
    (db.delete_event eid req).1.get_event eid = some ev := by
  have hnone : ∀ a ∈ db.events, ¬(a.id = eid ∧ a.user_id = req) := by
    intro a ha hcon
    have haev : a = ev := eventIds_unique_eq db.events hu a ha ev hev (hcon.1.trans hid.symm)
    rw [haev] at hcon
    exact horg hcon.2
  have hdel : db.events.filter (fun e => decide (e.id = eid ∧ e.user_id = req)) = [] := by
    rw [List.filter_eq_nil_iff]
    intro a ha
    simpa using hnone a ha
  have hrem : db.events.filter (fun e => !decide (e.id = eid ∧ e.user_id = req)) = db.events := by
    rw [List.filter_eq_self]
    intro a ha
    simp only [Bool.not_eq_eq_eq_not, Bool.not_true, decide_eq_false_iff_not]
    exact hnone a ha
  have hmain : db.delete_event eid req = (db, false) := by
    simp only [DB.delete_event, hdel, hrem]
    simp [List.filter_eq_self]
  refine ⟨hmain, ?_⟩
  rw [hmain]
  show db.get_event eid = some ev
  rw [DB.get_event, ← hid]
  exact find_event_by_id db.events ev hu hev

/-- Concrete database for the C5 witness. -/
def dbC5 : DB :=
  ⟨[⟨1, 7, "T", "Ty", "Ti", "L", "c"⟩], [⟨1, 1, 9, "yes", "u"⟩], 2, 2⟩

/-- Witness for C5: user 8 cannot delete the event organized by user 7. -/
theorem delete_by_non_organizer_witness :
    dbC5.delete_event 1 8 = (dbC5, false) ∧
    (dbC5.delete_event 1 8).1.get_event 1 = some ⟨1, 7, "T", "Ty", "Ti", "L", "c"⟩ :=
  delete_by_non_organizer dbC5 ⟨1, 7, "T", "Ty", "Ti", "L", "c"⟩ 1 8
    (by decide) (by decide) (by decide) (by decide)

/-- When every status of an event's rsvp rows is one of the three enumeration
values, the three per-status counts add up to the number of the event's rows. -/
theorem counts_sum_aux (eid : Int) :
    ∀ l : List RsvpRow,
      (∀ r ∈ l, r.event_id = eid →
        r.status = "yes" ∨ r.status = "no" ∨ r.status = "maybe") →
      l.countP (fun r => decide (r.event_id = eid ∧ pyLower r.status = "yes")) +
      l.countP (fun r => decide (r.event_id = eid ∧ pyLower r.status = "no")) +
      l.countP (fun r => decide (r.event_id = eid ∧ pyLower r.status = "maybe")) =
      (l.filter (fun r => decide (r.event_id = eid))).length := by
  intro l
  induction l with
  | nil => intro _; simp
  | cons r t ih =>
    intro hst
    have hrest := ih (fun x hx => hst x (List.mem_cons_of_mem r hx))
    by_cases he : r.event_id = eid
    · have h3 := hst r (List.mem_cons_self r t) he
      rcases h3 with h3 | h3 | h3
      · rw [List.countP_cons_of_pos _ t (by rw [h3]; exact decide_eq_true ⟨he, by decide⟩),
          List.countP_cons_of_neg _ t
            (by rw [h3]; simp only [decide_eq_true_eq]; exact fun hc => absurd hc.2 (by decide)),
          List.countP_cons_of_neg _ t
            (by rw [h3]; simp only [decide_eq_true_eq]; exact fun hc => absurd hc.2 (by decide))]
        have hf : List.filter (fun x => decide (x.event_id = eid)) (r :: t) =
            r :: List.filter (fun x => decide (x.event_id = eid)) t :=
          List.filter_cons_of_pos (by simpa using he)
        rw [hf, List.length_cons]
        omega
      · rw [List.countP_cons_of_neg _ t
            (by rw [h3]; simp only [decide_eq_true_eq]; exact fun hc => absurd hc.2 (by decide)),
          List.countP_cons_of_pos _ t (by rw [h3]; exact decide_eq_true ⟨he, by decide⟩),
          List.countP_cons_of_neg _ t
            (by rw [h3]; simp only [decide_eq_true_eq]; exact fun hc => absurd hc.2 (by decide))]
        have hf : List.filter (fun x => decide (x.event_id = eid)) (r :: t) =
            r :: List.filter (fun x => decide (x.event_id = eid)) t :=
          List.filter_cons_of_pos (by simpa using he)
        rw [hf, List.length_cons]
        omega
      · rw [List.countP_cons_of_neg _ t
            (by rw [h3]; simp only [decide_eq_true_eq]; exact fun hc => absurd hc.2 (by decide)),
          List.countP_cons_of_neg _ t
            (by rw [h3]; simp only [decide_eq_true_eq]; exact fun hc => absurd hc.2 (by decide)),
          List.countP_cons_of_pos _ t (by rw [h3]; exact decide_eq_true ⟨he, by decide⟩)]
        have hf : List.filter (fun x => decide (x.event_id = eid)) (r :: t) =
            r :: List.filter (fun x => decide (x.event_id = eid)) t :=
          List.filter_cons_of_pos (by simpa using he)
        rw [hf, List.length_cons]
        omega
    · rw [List.countP_cons_of_neg _ t
          (by simp only [decide_eq_true_eq]; exact fun hc => he hc.1),
        List.countP_cons_of_neg _ t
          (by simp only [decide_eq_true_eq]; exact fun hc => he hc.1),
        List.countP_cons_of_neg _ t
          (by simp only [decide_eq_true_eq]; exact fun hc => he hc.1)]
      have hf : List.filter (fun x => decide (x.event_id = eid)) (r :: t) =
          List.filter (fun x => decide (x.event_id = eid)) t :=
        List.filter_cons_of_neg (by simpa using he)
      rw [hf]
      omega

/-- Under the unique-key invariant, the responders of one event's rsvp rows
are pairwise distinct. -/
theorem responders_nodup (eid : Int) :
    ∀ l : List RsvpRow, rsvpKeysUniqueB l = true →
      ((l.filter (fun r => decide (r.event_id = eid))).map RsvpRow.user_id).Nodup := by
  intro l
  induction l with
  | nil => intro _; simp
  | cons r t ih =>
    intro h
    rw [rsvpKeysUniqueB, Bool.and_eq_true, List.all_eq_true] at h
    obtain ⟨hall, ht⟩ := h
    rw [List.filter_cons]
    by_cases he : r.event_id = eid
    · rw [if_pos (by simpa using he)]
      rw [List.map_cons, List.nodup_cons]
      refine ⟨?_, ih ht⟩
      intro hmem
      obtain ⟨s, hs, hsu⟩ := List.mem_map.mp hmem
      obtain ⟨hst, hse⟩ := List.mem_filter.mp hs
      have hns := hall s hst
      simp only [Bool.not_eq_eq_eq_not, Bool.not_true, Bool.and_eq_false_iff,
        beq_eq_false_iff_ne, ne_eq] at hns
      simp only [decide_eq_true_eq] at hse
      rcases hns with hns | hns
      · exact hns (hse.trans he.symm)
      · exact hns hsu
    · rw [if_neg (by simpa using he)]
      exact ih ht

/-- Claim C7: for an event whose stored statuses are all in the yes/no/maybe
enumeration, `get_rsvp_counts` returns all three keys (the structure always
carries them, defaulting to 0), and their sum equals the number of distinct
responders holding an RSVP for the event. -/
theorem rsvp_counts_sum (db : DB) (eid : Int)
    (hu : rsvpKeysUniqueB db.rsvps = true)
    (hst : ∀ r ∈ db.rsvps, r.event_id = eid →
      r.status = "yes" ∨ r.status = "no" ∨ r.status = "maybe") :
    (db.get_rsvp_counts eid).yes + (db.get_rsvp_counts eid).no +
      (db.get_rsvp_counts eid).maybe =
      (db.rsvps.filter (fun r => decide (r.event_id = eid))).length ∧
    ((db.rsvps.filter (fun r => decide (r.event_id = eid))).map RsvpRow.user_id).Nodup := by
  constructor
  · simp only [DB.get_rsvp_counts]
    exact counts_sum_aux eid db.rsvps hst
  · exact responders_nodup eid db.rsvps hu

/-- Concrete database for the C7 witness: one event with three RSVPs. -/
def dbC7 : DB :=
  ⟨[⟨1, 7, "T", "Ty", "Ti", "L", "c"⟩],
   [⟨1, 1, 9, "yes", "u"⟩, ⟨2, 1, 10, "maybe", "u"⟩, ⟨3, 1, 11, "maybe", "u"⟩], 2, 4⟩

/-- Witness for C7: counts of `dbC7` sum to its three distinct responders. -/
theorem rsvp_counts_sum_witness :
    (dbC7.get_rsvp_counts 1).yes + (dbC7.get_rsvp_counts 1).no +
      (dbC7.get_rsvp_counts 1).maybe =
      (dbC7.rsvps.filter (fun r => decide (r.event_id = 1))).length ∧
    ((dbC7.rsvps.filter (fun r => decide (r.event_id = 1))).map RsvpRow.user_id).Nodup :=
  rsvp_counts_sum dbC7 1 (by decide) (by decide)

/-- Claim C10: opening an invite link with an RSVP row already stored performs
no write at all — the returned database is the input database, so the row's
status and updated_at are untouched — and the rendered view carries the stored
status, not maybe. -/
theorem join_existing_rsvp_noop (db : DB) (eid uid : Int) (now : String)
    (ev : EventRow) (row : RsvpRow)
    (hev : db.get_event eid = some ev) (hrow : db.get_rsvp eid uid = some row) :
    handle_join_event ("private") uid now db eid =
      some (db, Out.joinView ev row.status (db.get_rsvp_counts eid)) := by
  simp [handle_join_event, hev, hrow]

/-- Concrete database for the C10 witness: event 1 and an RSVP with status no. -/
def dbC10 : DB :=
  ⟨[⟨1, 7, "T", "Ty", "Ti", "L", "c"⟩], [⟨1, 1, 9, "no", "u"⟩], 2, 2⟩

/-- Witness for C10: user 9 rejoins event 1 and keeps the stored no. -/
theorem join_existing_rsvp_noop_witness :
    handle_join_event ("private") 9 ("t2") dbC10 1 =
      some (dbC10, Out.joinView ⟨1, 7, "T", "Ty", "Ti", "L", "c"⟩
        (RsvpRow.status ⟨1, 1, 9, "no", "u"⟩) (dbC10.get_rsvp_counts 1)) :=
  join_existing_rsvp_noop dbC10 1 9 ("t2") ⟨1, 7, "T", "Ty", "Ti", "L", "c"⟩
    ⟨1, 1, 9, "no", "u"⟩ (by decide) (by decide)

/-- Claim C8: opening an invite link for an existing event with no stored RSVP
creates an RSVP with status maybe for that (event, user) pair — the insert
passes the foreign-key check because the event exists — so the stored status
afterwards is maybe and the maybe count grows by one. -/
theorem join_without_rsvp_creates_maybe (db : DB) (eid uid : Int) (now : String)
    (ev : EventRow)
    (hev : db.get_event eid = some ev) (hno : db.get_rsvp eid uid = none) :
    ∃ db2 : DB, db.upsert_rsvp eid uid ("maybe") now = some db2 ∧
      handle_join_event ("private") uid now db eid =
        some (db2, Out.joinView ev ("maybe") (db2.get_rsvp_counts eid)) ∧
      (db2.get_rsvp eid uid).map RsvpRow.status = some ("maybe") ∧
      (db2.get_rsvp_counts eid).maybe = (db.get_rsvp_counts eid).maybe + 1 := by
  have hall := List.find?_eq_none.mp hno
  have hany : (db.rsvps.any
      (fun r => decide (r.event_id = eid ∧ r.user_id = uid))) = false :=
    List.any_eq_false.mpr (fun x hx => hall x hx)
  have hev2 : db.events.find? (fun e2 => decide (e2.id = eid)) = some ev := hev
  have hfkany : (db.events.any (fun e2 => e2.id == eid)) = true :=
    List.any_eq_true.mpr ⟨ev, List.mem_of_find?_eq_some hev2,
      by simpa using List.find?_some hev2⟩
  have hins : db.upsert_rsvp eid uid ("maybe") now =
      some { db with
        rsvps := db.rsvps ++ [⟨db.nextRsvpId, eid, uid, "maybe", now⟩],
        nextRsvpId := db.nextRsvpId + 1 } := by
    rw [DB.upsert_rsvp, if_neg (by simp only [hany]; exact Bool.false_ne_true),
      if_pos hfkany]
  refine ⟨_, hins, ?_, ?_, ?_⟩
  · simp [handle_join_event, hev, hno, hins]
  · show (((db.rsvps ++ [⟨db.nextRsvpId, eid, uid, "maybe", now⟩] : List RsvpRow)).find?
        (fun r => decide (r.event_id = eid ∧ r.user_id = uid))).map RsvpRow.status =
      some ("maybe")
    rw [List.find?_append]
    rw [DB.get_rsvp] at hno
    rw [hno]
    simp
  · show (((db.rsvps ++ [⟨db.nextRsvpId, eid, uid, "maybe", now⟩] : List RsvpRow)).countP
        (fun r => decide (r.event_id = eid ∧ pyLower r.status = "maybe"))) =
      (db.rsvps.countP
        (fun r => decide (r.event_id = eid ∧ pyLower r.status = "maybe"))) + 1
    rw [List.countP_append]
    simp [pyLower]

/-- Concrete database for the C8 witness: event 1 with no RSVPs. -/
def dbC8 : DB :=
  ⟨[⟨1, 7, "T", "Ty", "Ti", "L", "c"⟩], [], 2, 1⟩

/-- Witness for C8: user 9 joins event 1 for the first time. -/
theorem join_without_rsvp_creates_maybe_witness :
    ∃ db2 : DB, dbC8.upsert_rsvp 1 9 ("maybe") ("t") = some db2 ∧
      handle_join_event ("private") 9 ("t") dbC8 1 =
        some (db2, Out.joinView ⟨1, 7, "T", "Ty", "Ti", "L", "c"⟩ ("maybe")
          (db2.get_rsvp_counts 1)) ∧
      (db2.get_rsvp 1 9).map RsvpRow.status = some ("maybe") ∧
      (db2.get_rsvp_counts 1).maybe = (dbC8.get_rsvp_counts 1).maybe + 1 :=
  join_without_rsvp_creates_maybe dbC8 1 9 ("t") ⟨1, 7, "T", "Ty", "Ti", "L", "c"⟩
    (by decide) (by decide)

/-- Modelled from the spec: the strict HH:MM numeric pattern the Time-step
sentence names — exactly five characters, two decimal digits, a colon, two
decimal digits. -/
def isStrictHHMM (s : String) : Bool :=
  match s.data with
  | [a, b, c, d, e] => a.isDigit && b.isDigit && c == ':' && d.isDigit && e.isDigit
  | _ => false

/-- A decimal digit character is not a colon. -/
theorem digit_beq_colon_eq_false (c : Char) (h : c.isDigit = true) :
    (c == ':') = false := by
  cases hb : c == ':'
  · rfl
  · exfalso
    have hc : c = ':' := by simpa using hb
    rw [hc] at h
    exact absurd h (by decide)

/-- Counterexample to C4 as stated: the input `1::23` is not a strict HH:MM
pattern, yet the code stores `Tomorrow 1::23`, not the trimmed text verbatim —
the guard on bot.py line 317 only pins the third character, so colons may
replace digits elsewhere. -/
theorem time_step_not_verbatim :
    pyStrip ("1::23") = "1::23" ∧
    isStrictHHMM ("1::23") = false ∧
    timeValueOfInput ("1::23") = "Tomorrow 1::23" ∧
    timeValueOfInput ("1::23") ≠ "1::23" := by decide

/-- Claim C4 (amended): empty or whitespace-only input stores the default
`Tomorrow 19:00`.  An input whose stripped form has exactly 5 characters, a
colon as third character, and a nonempty all-digit residue once colons are
removed — a set that contains every strict HH:MM input but also shapes such as
`1::23` — is stored as `Tomorrow ` followed by the stripped input.  Every
other input is stored stripped, verbatim. -/
theorem time_step_parsing (t : String) :
    timeValueOfInput t =
      (if pyStrip t = "" then DEFAULT_TIME_TEXT
       else if (pyStrip t).length == 5 &&
               (pyStrip t).data.getD 2 ' ' == ':' &&
               pyIsDigitStr ((pyStrip t).data.filter (fun c => !(c == ':'))) then
         "Tomorrow " ++ pyStrip t
       else pyStrip t) ∧
    (!(isStrictHHMM (pyStrip t)) ||
      ((pyStrip t).length == 5 &&
       (pyStrip t).data.getD 2 ' ' == ':' &&
       pyIsDigitStr ((pyStrip t).data.filter (fun c => !(c == ':'))))) = true := by
  constructor
  · rfl
  · generalize pyStrip t = u
    obtain ⟨l⟩ := u
    rcases l with _ | ⟨a, _ | ⟨b, _ | ⟨c, _ | ⟨d, _ | ⟨e, _ | ⟨f, rest⟩⟩⟩⟩⟩⟩
    · simp [isStrictHHMM]
    · simp [isStrictHHMM]
    · simp [isStrictHHMM]
    · simp [isStrictHHMM]
    · simp [isStrictHHMM]
    · by_cases hs :
          (a.isDigit && b.isDigit && (c == ':') && d.isDigit && e.isDigit) = true
      · simp only [Bool.and_eq_true, beq_iff_eq] at hs
        obtain ⟨⟨⟨⟨ha, hb⟩, hc⟩, hd⟩, he⟩ := hs
        subst hc
        simp only [Bool.or_eq_true]
        right
        simp only [Bool.and_eq_true]
        refine ⟨⟨rfl, rfl⟩, ?_⟩
        rw [List.filter_cons_of_pos (by simp [digit_beq_colon_eq_false a ha]),
          List.filter_cons_of_pos (by simp [digit_beq_colon_eq_false b hb]),
          List.filter_cons_of_neg (by simp),
          List.filter_cons_of_pos (by simp [digit_beq_colon_eq_false d hd]),
          List.filter_cons_of_pos (by simp [digit_beq_colon_eq_false e he])]
        simp [pyIsDigitStr, ha, hb, hd, he]
      · have : isStrictHHMM ⟨[a, b, c, d, e]⟩ = false := by
          rw [isStrictHHMM]
          simpa using hs
        rw [this]
        simp
    · simp [isStrictHHMM]

/-- Facts about the ten decimal digit characters, by evaluation. -/
theorem digitChar_props : ∀ d : Nat, d < 10 →
    (Nat.digitChar d).isDigit = true ∧ (Nat.digitChar d).isWhitespace = false ∧
    (Nat.digitChar d).toNat - 48 = d ∧ ((Nat.digitChar d) == '_') = false := by
  decide

/-- A decimal digit character is not whitespace. -/
theorem digit_not_ws (c : Char) (h : c.isDigit = true) : c.isWhitespace = false := by
  cases hw : c.isWhitespace
  · rfl
  · exfalso
    simp only [Char.isWhitespace, Bool.or_eq_true, decide_eq_true_eq] at hw
    rcases hw with ((rfl | rfl) | rfl) | rfl <;> exact absurd h (by decide)

/-- Every character of a decimal rendering is a digit. -/
theorem natDecimalChars_all_digit (m : Nat) :
    ∀ c ∈ natDecimalChars m, c.isDigit = true := by
  intro c hc
  rw [natDecimalChars] at hc
  by_cases h0 : m = 0
  · rw [if_pos h0] at hc
    simp only [List.mem_singleton] at hc
    rw [hc]
    decide
  · rw [if_neg h0] at hc
    rw [List.mem_reverse, List.mem_map] at hc
    obtain ⟨d, hd, rfl⟩ := hc
    exact (digitChar_props d (Nat.digits_lt_base (by norm_num) hd)).1

/-- A decimal rendering is never empty. -/
theorem natDecimalChars_ne_nil (m : Nat) : natDecimalChars m ≠ [] := by
  rw [natDecimalChars]
  by_cases h0 : m = 0
  · rw [if_pos h0]; simp
  · rw [if_neg h0]
    intro hcon
    simp only [List.reverse_eq_nil_iff, List.map_eq_nil_iff] at hcon
    exact (Nat.digits_ne_nil_iff_ne_zero.mpr h0) hcon

/-- Dropping a prefix of characters none of which satisfies the predicate is
the identity. -/
theorem dropWhile_eq_self_of_none (p : Char → Bool) (l : List Char)
    (h : ∀ c ∈ l, p c = false) : l.dropWhile p = l := by
  cases l with
  | nil => rfl
  | cons c r =>
    rw [List.dropWhile_cons, h c (List.mem_cons_self c r)]
    simp

/-- Stripping whitespace from whitespace-free text is the identity. -/
theorem trimWs_eq_self (l : List Char) (h : ∀ c ∈ l, c.isWhitespace = false) :
    trimWsChars l = l := by
  rw [trimWsChars, dropWhile_eq_self_of_none _ l h,
    dropWhile_eq_self_of_none _ l.reverse (fun c hc => h c (List.mem_reverse.mp hc))]
  exact List.reverse_reverse l

/-- An all-digit tail is accepted by the digit-run acceptor. -/
theorem pyDigitRun_of_digits :
    ∀ l : List Char, (∀ c ∈ l, c.isDigit = true) → pyDigitRun l = true := by
  intro l
  induction l with
  | nil => intro _; rfl
  | cons c r ih =>
    intro h
    have hc := h c (List.mem_cons_self c r)
    have hcu : ¬ c = '_' := fun hcc => by
      rw [hcc] at hc; exact absurd hc (by decide)
    have htail := ih (fun x hx => h x (List.mem_cons_of_mem c hx))
    cases r with
    | nil =>
      have hunf : pyDigitRun [c] =
          if c = '_' then false else c.isDigit && pyDigitRun [] := rfl
      rw [hunf, if_neg hcu, hc]
      simp [pyDigitRun]
    | cons c2 r2 =>
      have hunf : pyDigitRun (c :: c2 :: r2) =
          if c = '_' then c2.isDigit && pyDigitRun r2
          else c.isDigit && pyDigitRun (c2 :: r2) := rfl
      rw [hunf, if_neg hcu, hc, htail]
      simp

/-- Discarding underscores from an all-digit list is the identity. -/
theorem filter_underscore_of_digits (l : List Char)
    (h : ∀ c ∈ l, c.isDigit = true) :
    l.filter (fun c => !(c == '_')) = l := by
  rw [List.filter_eq_self]
  intro a ha
  have hd := h a ha
  cases hb : a == '_'
  · rfl
  · exfalso
    have ha2 : a = '_' := by simpa using hb
    rw [ha2] at hd
    exact absurd hd (by decide)

/-- Folding the decimal digits of a digit list (most significant first)
recovers the positional value. -/
theorem foldl_digitChars :
    ∀ L : List Nat, (∀ d ∈ L, d < 10) → ∀ a : Nat,
      List.foldl (fun x c => 10 * x + (c.toNat - 48)) a ((L.map Nat.digitChar).reverse) =
      a * 10 ^ L.length + Nat.ofDigits 10 L := by
  intro L
  induction L with
  | nil => intro _ a; simp [Nat.ofDigits_nil]
  | cons d T ih =>
    intro h a
    rw [List.map_cons, List.reverse_cons, List.foldl_append,
      ih (fun x hx => h x (List.mem_cons_of_mem d hx)) a]
    simp only [List.foldl_cons, List.foldl_nil]
    rw [(digitChar_props d (h d (List.mem_cons_self d T))).2.2.1,
      Nat.ofDigits_cons, List.length_cons, pow_succ]
    ring

/-- The numeric value of a decimal rendering is the rendered number. -/
theorem digitsVal_natDecimalChars (m : Nat) : digitsVal (natDecimalChars m) = m := by
  rw [natDecimalChars]
  by_cases h0 : m = 0
  · rw [if_pos h0, h0]; rfl
  · rw [if_neg h0, digitsVal,
      foldl_digitChars (Nat.digits 10 m)
        (fun d hd => Nat.digits_lt_base (by norm_num) hd) 0]
    simp [Nat.ofDigits_digits]

/-- CPython `int()` inverts the decimal rendering of a natural number. -/
theorem pyInt_natDecimalChars (m : Nat) :
    pyInt (natDecimalChars m) = some (m : Int) := by
  have hdig := natDecimalChars_all_digit m
  have hnws : ∀ c ∈ natDecimalChars m, c.isWhitespace = false :=
    fun c hc => digit_not_ws c (hdig c hc)
  rw [pyInt, trimWs_eq_self _ hnws]
  cases hsh : natDecimalChars m with
  | nil => exact absurd hsh (natDecimalChars_ne_nil m)
  | cons c r =>
    have hdig2 : ∀ x ∈ c :: r, x.isDigit = true := hsh ▸ hdig
    have hval : digitsVal (c :: r) = m := by
      rw [← hsh]; exact digitsVal_natDecimalChars m
    have hc := hdig2 c (List.mem_cons_self c r)
    have hcm : ¬ c = '-' := fun hcc => by
      rw [hcc] at hc; exact absurd hc (by decide)
    have hcp : ¬ c = '+' := fun hcc => by
      rw [hcc] at hc; exact absurd hc (by decide)
    have hgrp : pyDigitGroup (c :: r) = true := by
      simp only [pyDigitGroup, hc, Bool.true_and]
      exact pyDigitRun_of_digits r (fun x hx => hdig2 x (List.mem_cons_of_mem c hx))
    simp only [pyIntCore, if_neg hcm, if_neg hcp, if_pos hgrp]
    rw [digitGroupVal, filter_underscore_of_digits _ hdig2, hval]

/-- CPython `int()` inverts Python `str` on every integer. -/
theorem pyInt_intToStr (i : Int) : pyInt (intToStr i).data = some i := by
  rw [intToStr]
  by_cases hneg : i < 0
  · rw [if_pos hneg]
    show pyInt ('-' :: natDecimalChars i.natAbs) = some i
    have hnws : ∀ c ∈ '-' :: natDecimalChars i.natAbs, c.isWhitespace = false := by
      intro c hc
      rcases List.mem_cons.mp hc with rfl | hct
      · decide
      · exact digit_not_ws c (natDecimalChars_all_digit _ c hct)
    rw [pyInt, trimWs_eq_self _ hnws]
    have hgrp : pyDigitGroup (natDecimalChars i.natAbs) = true := by
      cases hsh : natDecimalChars i.natAbs with
      | nil => exact absurd hsh (natDecimalChars_ne_nil _)
      | cons c r =>
        have hdig2 : ∀ x ∈ c :: r, x.isDigit = true :=
          hsh ▸ natDecimalChars_all_digit _
        simp only [pyDigitGroup, hdig2 c (List.mem_cons_self c r), Bool.true_and]
        exact pyDigitRun_of_digits r
          (fun x hx => hdig2 x (List.mem_cons_of_mem c hx))
    simp only [pyIntCore, if_pos rfl, if_pos hgrp]
    rw [digitGroupVal,
      filter_underscore_of_digits _ (natDecimalChars_all_digit _),
      digitsVal_natDecimalChars]
    have habs : -((i.natAbs : Int)) = i := by omega
    rw [habs]
    simp
  · rw [if_neg hneg]
    show pyInt (natDecimalChars i.natAbs) = some i
    rw [pyInt_natDecimalChars]
    have habs : ((i.natAbs : Int)) = i := by omega
    rw [habs]

/-- Claim C6: the deep-link argument embedded in the invite link built for an
event id parses back to exactly that id — `join_` plus the decimal rendering
round-trips through the start-command parser, and the built link is the fixed
prefix followed by that argument. -/
theorem invite_link_roundtrip (username : String) (n : Int) :
    parseJoinArg ("join_" ++ intToStr n) = some n ∧
    get_invite_link username n =
      "https://t.me/" ++ username ++ "?start=" ++ ("join_" ++ intToStr n) := by
  constructor
  · have hdata : ("join_" ++ intToStr n).data =
        'j' :: 'o' :: 'i' :: 'n' :: '_' :: (intToStr n).data := by
      rw [String.data_append]; rfl
    rw [parseJoinArg, hdata]
    simp only [parseJoinArgChars]
    exact pyInt_intToStr n
  · rw [get_invite_link]
    have hsplit : ("https://t.me/" ++ username ++ "?start=join_" ++ intToStr n) =
        ("https://t.me/" ++ username ++ ("?start=" ++ "join_") ++ intToStr n) := rfl
    rw [hsplit, ← String.append_assoc ("https://t.me/" ++ username) ("?start=") ("join_"),
      String.append_assoc ("https://t.me/" ++ username ++ "?start=") ("join_") (intToStr n)]

/-- A true `startswith` exposes the text as the prefix plus a tail. -/
theorem pyStartsWith_shape (data pre : String) (h : pyStartsWith data pre = true) :
    ∃ t, data.data = pre.data ++ t := by
  rw [pyStartsWith] at h
  obtain ⟨t, ht⟩ := List.isPrefixOf_iff_prefix.mp h
  exact ⟨t, ht.symm⟩

/-- Python split never returns an empty list of chunks. -/
theorem splitOnChar_ne_nil (sep : Char) :
    ∀ l : List Char, splitOnChar sep l ≠ [] := by
  intro l
  cases l with
  | nil => simp [splitOnChar]
  | cons c r =>
    by_cases hcs : c = sep
    · simp [splitOnChar, hcs]
    · have hunf : splitOnChar sep (c :: r) = consHead c (splitOnChar sep r) := by
        simp [splitOnChar, hcs]
      rw [hunf]
      cases splitOnChar sep r with
      | nil => simp [consHead]
      | cons h2 t2 => simp [consHead]

/-- The id part of a view/delete payload, Python `data.split(":", 1)[1]`,
fails to parse as an integer (or, vacuously, is absent). -/
def idPartFails (data : String) : Bool :=
  match afterFirst ':' data.data with
  | some rest => (pyInt rest).isNone
  | none => true

/-- The malformed button payloads that claim C9 quantifies over: a view or
delete payload whose id part is not an integer, or an rsvp payload with the
wrong number of colon-delimited parts or a non-integer id part. -/
def malformedCallbackB (data : String) : Bool :=
  (pyStartsWith data ("view:") && idPartFails data) ||
  (pyStartsWith data ("delete:") && idPartFails data) ||
  (pyStartsWith data ("rsvp:") &&
    (decide ((splitOnChar ':' data.data).length ≠ 3) ||
      (match (splitOnChar ':' data.data).get? 1 with
       | some p1 => (pyInt p1).isNone
       | none => false)))

/-- Claim C9: every malformed view/delete/rsvp payload is answered with a
user-visible invalid-data alert, the database is untouched, and the handler
returns normally (the `none` that models an uncaught exception never arises). -/
theorem malformed_callback_rejected (uid : Int) (now data : String) (db : DB)
    (h : malformedCallbackB data = true) :
    handle_callbacks uid now data db = some (db, Out.alert ("Invalid event id.")) ∨
    handle_callbacks uid now data db = some (db, Out.alert ("Invalid RSVP data.")) := by
  simp only [malformedCallbackB, Bool.or_eq_true, Bool.and_eq_true] at h
  rcases h with (⟨hpre, hfail⟩ | ⟨hpre, hfail⟩) | ⟨hpre, hrest⟩
  · -- view payload with bad id
    obtain ⟨t, hdata⟩ := pyStartsWith_shape data ("view:") hpre
    have haf : afterFirst ':' data.data = some t := by rw [hdata]; rfl
    have hpn : pyInt t = none := by
      rw [idPartFails, haf] at hfail
      exact Option.isNone_iff_eq_none.mp hfail
    left
    simp [handle_callbacks, hpre, haf, hpn]
  · -- delete payload with bad id
    obtain ⟨t, hdata⟩ := pyStartsWith_shape data ("delete:") hpre
    have hv : pyStartsWith data ("view:") = false := by rw [pyStartsWith, hdata]; rfl
    have haf : afterFirst ':' data.data = some t := by rw [hdata]; rfl
    have hpn : pyInt t = none := by
      rw [idPartFails, haf] at hfail
      exact Option.isNone_iff_eq_none.mp hfail
    left
    simp [handle_callbacks, hv, hpre, haf, hpn]
  · -- rsvp payload with wrong arity or bad id
    obtain ⟨t, hdata⟩ := pyStartsWith_shape data ("rsvp:") hpre
    have hv : pyStartsWith data ("view:") = false := by rw [pyStartsWith, hdata]; rfl
    have hd : pyStartsWith data ("delete:") = false := by rw [pyStartsWith, hdata]; rfl
    right
    by_cases hlen3 : (splitOnChar ':' data.data).length = 3
    · rcases hrest with hlen | hp1
      · rw [decide_eq_true_eq] at hlen
        exact absurd hlen3 hlen
      · have hsplit : splitOnChar ':' data.data =
            ('r' :: 's' :: 'v' :: 'p' :: []) :: splitOnChar ':' t := by
          rw [hdata]; rfl
        cases hsp : splitOnChar ':' t with
        | nil => exact absurd hsp (splitOnChar_ne_nil ':' t)
        | cons p1 rest1 =>
          have hlen1 : rest1.length = 1 := by
            rw [hsplit, hsp] at hlen3
            simpa using hlen3
          cases rest1 with
          | nil => simp at hlen1
          | cons p2 rest2 =>
            cases rest2 with
            | cons p3 rest3 => simp at hlen1
            | nil =>
              have hget : (splitOnChar ':' data.data).get? 1 = some p1 := by
                rw [hsplit, hsp]; rfl
              rw [hget] at hp1
              have hpn : pyInt p1 = none := Option.isNone_iff_eq_none.mp hp1
              have hparts : splitOnChar ':' data.data =
                  [('r' :: 's' :: 'v' :: 'p' :: []), p1, p2] := by
                rw [hsplit, hsp]
              simp [handle_callbacks, hv, hd, hpre, hparts, hpn]
    · simp [handle_callbacks, hv, hd, hpre, hlen3]

/-- Witness for C9: the payload `view:x` carries a non-integer id. -/
theorem malformed_callback_rejected_witness :
    handle_callbacks 1 ("t") ("view:x") DB.initial =
      some (DB.initial, Out.alert ("Invalid event id.")) ∨
    handle_callbacks 1 ("t") ("view:x") DB.initial =
      some (DB.initial, Out.alert ("Invalid RSVP data.")) :=
  malformed_callback_rejected 1 ("t") ("view:x") DB.initial (by decide)

/-- Run a sequence of dialogue messages through `handle_event_creation`,
threading the bot state and dropping the outbound replies. -/
def runCreation (uid : Int) (now username : String) :
    BotState → List MsgContent → Option BotState
  | bs, [] => some bs
  | bs, m :: ms =>
    match handle_event_creation uid now username bs m with
    | none => none
    | some (bs2, _) => runCreation uid now username bs2 ms

/-- A message passing the Title-step validation: text whose strip is nonempty. -/
def validTitleInput : MsgContent → Bool
  | .text s => !(pyStrip s == "")
  | .location _ _ => false

/-- A message passing the Location-step validation: a pin, or nonempty text. -/
def validLocationInput : MsgContent → Bool
  | .text s => !(pyStrip s == "")
  | .location _ _ => true

/-- A message passing the Type-step validation: text whose strip is nonempty. -/
def validTypeInput : MsgContent → Bool
  | .text s => !(pyStrip s == "")
  | .location _ _ => false

/-- A message passing the Time-step validation: any text message. -/
def validTimeInput : MsgContent → Bool
  | .text _ => true
  | .location _ _ => false

/-- The stored value of a text step: the stripped text. -/
def validatedText : MsgContent → String
  | .text s => pyStrip s
  | .location _ _ => ""

/-- The stored value of the Location step: the pin label or the stripped text. -/
def validatedLocationValue : MsgContent → String
  | .text s => pyStrip s
  | .location la lo => "Pin: " ++ la ++ ", " ++ lo

/-- The stored value of the Time step. -/
def validatedTimeValue : MsgContent → String
  | .text s => timeValueOfInput s
  | .location _ _ => ""

/-- Claim C1: from a freshly started conversation, any four messages that each
pass their step's validation drive the dialogue to completion: exactly one
event row is appended, carrying the validated title, type, time and location
of the four steps in order (and the organizer id and timestamp), the id
counter advances once, the RSVP table is untouched, and the conversation
state of the user is destroyed. -/
theorem creation_dialogue_persists_event (db : DB)
    (us : Int → Option EventCreationState) (uid : Int) (now username : String)
    (m1 m2 m3 m4 : MsgContent)
    (hstart : us uid = some {})
    (h1 : validTitleInput m1 = true) (h2 : validLocationInput m2 = true)
    (h3 : validTypeInput m3 = true) (h4 : validTimeInput m4 = true) :
    (runCreation uid now username ⟨db, us⟩ [m1, m2, m3, m4]).map BotState.db =
      some { db with
        events := db.events ++
          [⟨db.nextEventId, uid, validatedText m1, validatedText m3,
            validatedTimeValue m4, validatedLocationValue m2, now⟩],
        nextEventId := db.nextEventId + 1 } ∧
    (runCreation uid now username ⟨db, us⟩ [m1, m2, m3, m4]).map
      (fun bs => bs.user_states uid) = some none := by
  cases m1 with
  | location la lo => exact absurd h1 (by simp [validTitleInput])
  | text s1 =>
  cases m2 with
  | text s2 =>
    rw [validLocationInput] at h2
    cases m3 with
    | location la lo => exact absurd h3 (by simp [validTypeInput])
    | text s3 =>
    rw [validTypeInput] at h3
    cases m4 with
    | location la lo => exact absurd h4 (by simp [validTimeInput])
    | text s4 =>
    rw [validTitleInput] at h1
    have e1 : (pyStrip s1 == "") = false := by
      cases hb : pyStrip s1 == "" <;> simp [hb] at h1 ⊢
    have e2 : (pyStrip s2 == "") = false := by
      cases hb : pyStrip s2 == "" <;> simp [hb] at h2 ⊢
    have e3 : (pyStrip s3 == "") = false := by
      cases hb : pyStrip s3 == "" <;> simp [hb] at h3 ⊢
    have n1 : (s1 == "") = false := by
      cases hb : s1 == ""
      · rfl
      · have : s1 = "" := by simpa using hb
        rw [this] at e1
        exact absurd e1 (by decide)
    have n2 : (s2 == "") = false := by
      cases hb : s2 == ""
      · rfl
      · have : s2 = "" := by simpa using hb
        rw [this] at e2
        exact absurd e2 (by decide)
    have n3 : (s3 == "") = false := by
      cases hb : s3 == ""
      · rfl
      · have : s3 = "" := by simpa using hb
        rw [this] at e3
        exact absurd e3 (by decide)
    constructor <;>
      simp [runCreation, handle_event_creation, hstart, e1, e2, e3, n1, n2, n3,
        EventCreationState.current_step, steps, BotState.setState, BotState.clearState,
        finish_event_creation, DB.create_event, validatedText, validatedLocationValue,
        validatedTimeValue]
  | location la lo =>
    cases m3 with
    | location la3 lo3 => exact absurd h3 (by simp [validTypeInput])
    | text s3 =>
    rw [validTypeInput] at h3
    cases m4 with
    | location la4 lo4 => exact absurd h4 (by simp [validTimeInput])
    | text s4 =>
    rw [validTitleInput] at h1
    have e1 : (pyStrip s1 == "") = false := by
      cases hb : pyStrip s1 == "" <;> simp [hb] at h1 ⊢
    have e3 : (pyStrip s3 == "") = false := by
      cases hb : pyStrip s3 == "" <;> simp [hb] at h3 ⊢
    have n1 : (s1 == "") = false := by
      cases hb : s1 == ""
      · rfl
      · have : s1 = "" := by simpa using hb
        rw [this] at e1
        exact absurd e1 (by decide)
    have n3 : (s3 == "") = false := by
      cases hb : s3 == ""
      · rfl
      · have : s3 = "" := by simpa using hb
        rw [this] at e3
        exact absurd e3 (by decide)
    constructor <;>
      simp [runCreation, handle_event_creation, hstart, e1, e3, n1, n3,
        EventCreationState.current_step, steps, BotState.setState, BotState.clearState,
        finish_event_creation, DB.create_event, validatedText, validatedLocationValue,
        validatedTimeValue]

/-- Witness for C1: a concrete four-message dialogue for user 1. -/
theorem creation_dialogue_persists_event_witness :
    (runCreation 1 ("t0") ("bot")
        ⟨DB.initial, fun k => if k = 1 then some {} else none⟩
        [MsgContent.text ("Board games"), MsgContent.text ("Lake park"),
         MsgContent.text ("walk"), MsgContent.text ("")]).map BotState.db =
      some { DB.initial with
        events := DB.initial.events ++
          [⟨DB.initial.nextEventId, 1, validatedText (MsgContent.text ("Board games")),
            validatedText (MsgContent.text ("walk")),
            validatedTimeValue (MsgContent.text ("")),
            validatedLocationValue (MsgContent.text ("Lake park")), "t0"⟩],
        nextEventId := DB.initial.nextEventId + 1 } ∧
    (runCreation 1 ("t0") ("bot")
        ⟨DB.initial, fun k => if k = 1 then some {} else none⟩
        [MsgContent.text ("Board games"), MsgContent.text ("Lake park"),
         MsgContent.text ("walk"), MsgContent.text ("")]).map
      (fun bs => bs.user_states 1) = some none :=
  creation_dialogue_persists_event DB.initial
    (fun k => if k = 1 then some {} else none) 1 ("t0") ("bot")
    (MsgContent.text ("Board games")) (MsgContent.text ("Lake park"))
    (MsgContent.text ("walk")) (MsgContent.text (""))
    (by decide) (by decide) (by decide) (by decide) (by decide)

end AurumEvent
